import Mathlib

/-!
Shallow embedding of the pg-vault interactive session controller
(src/tui/app.rs, src/tui/mod.rs, src/aws.rs) and proofs about it.

Strings are Lean `String`s; Rust's `str::to_lowercase` is embedded as a
character-wise lowercase map, and `str::contains` as list-infix containment.
Machine integers (`u16`) are `Nat` with explicit bounds.  Fallible Rust
functions (`anyhow::Result`) are embedded as `Except String`; external
side-effecting collaborators (config file, keyring, AWS CLI) are embedded
as explicit state carried in the `App` structure plus result oracles passed
as arguments.
-/

namespace PgVault

/-- Embedding of Rust `str::to_lowercase` (character-wise lowering). -/
def lowerStr (s : String) : String :=
  String.mk (s.toList.map Char.toLower)

/-- Embedding of Rust `str::contains(&str)`: `needle` occurs as a
contiguous substring of `hay`. -/
def containsSub (hay needle : String) : Bool :=
  decide (needle.toList <:+: hay.toList)

/-- Embedding of Rust `str::parse::<u16>()`: optional leading `+`, then one
or more ASCII digits, value below 2^16. Returns `none` on any parse error. -/
def parseU16 (s : String) : Option Nat :=
  let cs := s.toList
  let ds := match cs with
    | '+' :: rest => rest
    | _ => cs
  if ds.isEmpty then none
  else if ds.all (fun c => c.isDigit) then
    let v := ds.foldl (fun acc c => acc * 10 + (c.toNat - 48)) 0
    if v < 65536 then some v else none
  else none

/-- `src/config.rs` `ConnectionInfo` (the `u16` port is a bounded `Nat`). -/
structure ConnectionInfo where
  host : String
  port : Nat
  database : String
  username : String
  iam_auth : Bool
deriving Repr, DecidableEq

/-- The keys of an association-list map (Rust `HashMap::keys`). -/
def mapKeys (m : List (String × ConnectionInfo)) : List String :=
  m.map Prod.fst

/-- Rust `HashMap::get`. -/
def mapGet (m : List (String × ConnectionInfo)) (k : String) : Option ConnectionInfo :=
  (m.find? (fun p => p.1 == k)).map Prod.snd

/-- Rust `HashMap::insert` (replaces any existing binding). -/
def mapInsert (m : List (String × ConnectionInfo)) (k : String) (v : ConnectionInfo) :
    List (String × ConnectionInfo) :=
  (k, v) :: m.filter (fun p => p.1 != k)

/-- Rust `HashMap::remove`. -/
def mapRemove (m : List (String × ConnectionInfo)) (k : String) :
    List (String × ConnectionInfo) :=
  m.filter (fun p => p.1 != k)

/-- `connection_names.sort()`: the sorted name list derived from the map. -/
def sortNames (l : List String) : List String :=
  l.insertionSort (fun a b => a ≤ b)

/-- `src/tui/app.rs` `FormState`. -/
structure FormState where
  name : String
  host : String
  port : String
  database : String
  username : String
  password : String
  iam : Bool
  current_field : Nat
deriving Repr, DecidableEq

namespace FormState

/-- `FormState::reset`. -/
def reset : FormState :=
  { name := "", host := "", port := "5432", database := "", username := ""
    password := "", iam := false, current_field := 0 }

/-- `FormState::next_field`. -/
def next_field (f : FormState) : FormState :=
  let max_field := if f.iam then 6 else 7
  let cf := min (f.current_field + 1) max_field
  if f.iam ∧ cf = 6 then { f with current_field := 7 }
  else { f with current_field := cf }

/-- `FormState::prev_field`. -/
def prev_field (f : FormState) : FormState :=
  if f.current_field > 0 then
    let cf := f.current_field - 1
    if f.iam ∧ cf = 6 then { f with current_field := 5 }
    else { f with current_field := cf }
  else f

/-- `FormState::handle_char`. -/
def handle_char (f : FormState) (c : Char) : FormState :=
  match f.current_field with
  | 0 => { f with name := f.name.push c }
  | 1 => { f with host := f.host.push c }
  | 2 => if c.isDigit then { f with port := f.port.push c } else f
  | 3 => { f with database := f.database.push c }
  | 4 => { f with username := f.username.push c }
  | 6 => if !f.iam then { f with password := f.password.push c } else f
  | _ => f

/-- Rust `String::pop` (drop the last character). -/
def strPop (s : String) : String :=
  String.mk s.toList.dropLast

/-- `FormState::handle_backspace`. -/
def handle_backspace (f : FormState) : FormState :=
  match f.current_field with
  | 0 => { f with name := strPop f.name }
  | 1 => { f with host := strPop f.host }
  | 2 => { f with port := strPop f.port }
  | 3 => { f with database := strPop f.database }
  | 4 => { f with username := strPop f.username }
  | 6 => if !f.iam then { f with password := strPop f.password } else f
  | _ => f

/-- `FormState::field_labels`. -/
def field_labels : List String :=
  ["Name", "Host", "Port", "Database", "Username", "IAM Auth", "Password", "Submit"]

/-- `FormState::validate`. -/
def validate (f : FormState) : Except String Unit :=
  if f.name.isEmpty then .error "Name is required"
  else if f.host.isEmpty then .error "Host is required"
  else if f.port.isEmpty then .error "Port is required"
  else if f.database.isEmpty then .error "Database is required"
  else if f.username.isEmpty then .error "Username is required"
  else if !f.iam ∧ f.password.isEmpty then
    .error "Password is required for non-IAM connections"
  else .ok ()

end FormState

/-- `src/tui/app.rs` `AppMode`. -/
inductive AppMode where
  | List | Actions | AddForm | ProfileSelector | Connecting
  | ConfirmDelete | ConfirmQuit | Search
deriving Repr, DecidableEq

/-- `src/tui/app.rs` `PendingAction`.  The `Psql` variant carries a closure
in Rust; only its presence is observable here. -/
inductive PendingAction where
  | psql
  | iamConnect (connection_info : ConnectionInfo) (profile : Option String)
deriving Repr, DecidableEq

/-- `src/tui/app.rs` `App`, together with the state of its two external
stores: `connStore` is the on-disk connection mapping read by
`load_connections` and written by `save_connections`; `secretStore` is the
OS keyring written by `store_password` / `remove_password`. -/
structure App where
  connections : List (String × ConnectionInfo)
  connection_names : List String
  selected_index : Nat
  mode : AppMode
  selected_action : Nat
  form_state : FormState
  aws_profiles : List String
  selected_profile : Nat
  status_message : Option String
  should_quit : Bool
  pending_action : Option PendingAction
  search_query : String
  search_matches : List Nat
  search_match_index : Nat
  profile_search_query : String
  profile_search_matches : List Nat
  profile_search_active : Bool
  connStore : List (String × ConnectionInfo)
  secretStore : List (String × String)
deriving Repr, DecidableEq

namespace App

/-- `App::reload_connections` (with `load_connections` reading
`connStore`; the claims assume the load itself succeeds). -/
def reload_connections (a : App) : App :=
  let connections := a.connStore
  let connection_names := sortNames (mapKeys connections)
  let selected_index :=
    if a.selected_index ≥ connection_names.length ∧ ¬connection_names.isEmpty then
      connection_names.length - 1
    else a.selected_index
  { a with connections, connection_names, selected_index }

/-- `App::selected_connection`. -/
def selected_connection (a : App) : Option (String × ConnectionInfo) :=
  (a.connection_names.get? a.selected_index).bind
    (fun name => (mapGet a.connections name).map (fun info => (name, info)))

/-- `App::update_search_matches`. -/
def update_search_matches (a : App) : App :=
  let query := lowerStr a.search_query
  let search_matches :=
    ((a.connection_names.enum.filter
        (fun p => containsSub (lowerStr p.2) query)).map Prod.fst)
  if !search_matches.isEmpty then
    { a with search_matches, search_match_index := 0
             selected_index := search_matches.headD 0 }
  else
    { a with search_matches }

/-- `App::next_match`. -/
def next_match (a : App) : App :=
  if !a.search_matches.isEmpty then
    let i := (a.search_match_index + 1) % a.search_matches.length
    { a with search_match_index := i, selected_index := a.search_matches.getD i 0 }
  else a

/-- `App::prev_match`. -/
def prev_match (a : App) : App :=
  if !a.search_matches.isEmpty then
    let i := match a.search_match_index with
      | 0 => a.search_matches.length - 1
      | j + 1 => j
    { a with search_match_index := i, selected_index := a.search_matches.getD i 0 }
  else a

/-- `App::clear_search`. -/
def clear_search (a : App) : App :=
  { a with search_query := "", search_matches := [], search_match_index := 0 }

/-- `App::update_profile_search_matches`. -/
def update_profile_search_matches (a : App) : App :=
  let query := lowerStr a.profile_search_query
  let profile_search_matches :=
    ((a.aws_profiles.enum.filter
        (fun p => containsSub (lowerStr p.2) query)).map Prod.fst)
  if !profile_search_matches.isEmpty then
    { a with profile_search_matches, selected_profile := profile_search_matches.headD 0 }
  else
    { a with profile_search_matches }

/-- `App::retry_iam_connect`. -/
def retry_iam_connect (a : App) (info : ConnectionInfo) (profile : Option String) : App :=
  { a with status_message := some "Retrying IAM connection..."
           pending_action := some (.iamConnect info profile) }

/-- `App::delete_selected_connection`.  `saveRes` is the outcome of
`save_connections` and `removeRes` the outcome of `remove_password`
(both external); on a successful save the store holds the shrunken map,
and a successful password removal deletes the keyring entry. -/
def delete_selected_connection (a : App) (saveRes removeRes : Except String Unit) :
    App × Except String Unit :=
  match a.selected_connection with
  | none => (a, .ok ())
  | some (name, _) =>
      let connections := mapRemove a.connections name
      match saveRes with
      | .error e => ({ a with connections }, .error e)
      | .ok _ =>
          let connStore := connections
          let secretStore := match removeRes with
            | .ok _ => a.secretStore.filter (fun p => p.1 != name)
            | .error _ => a.secretStore
          let a' := reload_connections
            { a with connections, connStore, secretStore }
          ({ a' with status_message := some ("Connection '" ++ name ++ "' deleted") },
           .ok ())

/-- `App::submit_form`.  `saveRes` is the outcome of `save_connections`,
`storeRes` the outcome of `store_password`. -/
def submit_form (a : App) (saveRes storeRes : Except String Unit) :
    App × Except String Unit :=
  match a.form_state.validate with
  | .error e => (a, .error e)
  | .ok _ =>
  match parseU16 a.form_state.port with
  | none => (a, .error "Invalid port number")
  | some port =>
      let info : ConnectionInfo :=
        { host := a.form_state.host, port, database := a.form_state.database
          username := a.form_state.username, iam_auth := a.form_state.iam }
      let name := a.form_state.name
      let password := a.form_state.password
      let connections := mapInsert a.connections name info
      match saveRes with
      | .error e => ({ a with connections }, .error e)
      | .ok _ =>
          let a := { a with connections, connStore := connections }
          if !a.form_state.iam then
            match storeRes with
            | .error e => (a, .error e)
            | .ok _ =>
                let a := { a with
                  secretStore := (name, password) :: a.secretStore.filter (fun p => p.1 != name) }
                let a := a.reload_connections
                ({ a with mode := AppMode.List, form_state := FormState.reset }, .ok ())
          else
            let a := a.reload_connections
            ({ a with mode := AppMode.List, form_state := FormState.reset }, .ok ())

end App

/-- `src/aws.rs` `needs_sso_login`. -/
def needs_sso_login (error_msg : String) : Bool :=
  let e := lowerStr error_msg
  containsSub e "sso" || containsSub e "token has expired" ||
  containsSub e "refresh_token" || containsSub e "the sso session" ||
  containsSub e "error loading sso"

/-- Observables of one `handle_pending_action` run on an `IamConnect`
pending action (`src/tui/mod.rs`): the resulting app state, whether the
interactive SSO login was invoked, and whether the database client was run. -/
structure IamStep where
  app : App
  loginAttempted : Bool
  clientRun : Bool
deriving Repr, DecidableEq

/-- The `PendingAction::IamConnect` arm of `handle_pending_action`
(`src/tui/mod.rs`).  `tokenRes` is the outcome of `generate_iam_token`,
`loginRes` of `spawn_sso_login`, `clientRes` of `spawn_psql_iam`
(all external commands).  The caller has already taken the pending action
out of `a.pending_action`. -/
def handle_pending_iam (a : App) (info : ConnectionInfo) (profile : Option String)
    (tokenRes : Except String String) (loginRes : Except String Unit)
    (clientRes : Except String Unit) : IamStep :=
  match tokenRes with
  | .ok _ =>
      match clientRes with
      | .ok _ => { app := a, loginAttempted := false, clientRun := true }
      | .error e =>
          { app := { a with status_message := some ("Error: " ++ e) }
            loginAttempted := false, clientRun := true }
  | .error e =>
      if needs_sso_login e then
        match loginRes with
        | .ok _ =>
            let a := { a with
              status_message := some "SSO login successful. Retrying connection..." }
            { app := a.retry_iam_connect info profile
              loginAttempted := true, clientRun := false }
        | .error le =>
            { app := { a with status_message := some ("SSO login failed: " ++ le) }
              loginAttempted := true, clientRun := false }
      else
        { app := { a with
            status_message := some ("Error: Failed to generate IAM token: " ++ e) }
          loginAttempted := false, clientRun := false }

/-- The chain of `handle_pending_action` runs that one user-initiated IAM
connect gives rise to: the event loop (`run_app`) takes the pending action,
runs `handle_pending_iam`, and if that scheduled a retry (a new
`IamConnect` pending action) the next iteration processes it in turn.
`toks` and `logins` are the streams of external outcomes, one token result
consumed per issuance attempt and one login result per attempted login.
Returns the final app state, the number of automatic retries performed,
and the number of successful SSO logins observed. -/
def run_iam_chain (info : ConnectionInfo) (profile : Option String)
    (clientRes : Except String Unit) :
    App → List (Except String String) → List (Except String Unit) →
    App × Nat × Nat
  | a, [], _ => (a, 0, 0)
  | a, t :: ts, logins =>
      let login := logins.headD (Except.error "no login outcome")
      let step := handle_pending_iam { a with pending_action := none }
        info profile t login clientRes
      let logins' := if step.loginAttempted then logins.tail else logins
      let loginOk : Nat :=
        if step.loginAttempted ∧ (logins.headD (Except.error "no login outcome")).isOk
        then 1 else 0
      match step.app.pending_action with
      | some (.iamConnect info' profile') =>
          let (a', r, lo) := run_iam_chain info' profile' clientRes
            { step.app with pending_action := none } ts logins'
          (a', r + 1, lo + loginOk)
      | _ => (step.app, 0, loginOk)

/-- The subset of `crossterm::event::KeyCode` values the embedded handlers
inspect. -/
inductive KeyCode where
  | enter | esc | tab | backTab | backspace
  | char (c : Char)
  | other
deriving Repr, DecidableEq

/-- `handle_search_input` (`src/tui/mod.rs`). -/
def handle_search_input (a : App) (key : KeyCode) : App :=
  match key with
  | .esc => { a.clear_search with mode := AppMode.List }
  | .enter => { a with mode := AppMode.List }
  | .backspace =>
      App.update_search_matches { a with search_query := FormState.strPop a.search_query }
  | .char c =>
      App.update_search_matches { a with search_query := a.search_query.push c }
  | _ => a

/-- `handle_form_input` (`src/tui/mod.rs`).  `saveRes` / `storeRes` are the
store outcomes threaded into `submit_form`. -/
def handle_form_input (a : App) (key : KeyCode) (saveRes storeRes : Except String Unit) :
    App :=
  match key with
  | .esc => { a with mode := AppMode.List, form_state := FormState.reset }
  | .tab => { a with form_state := a.form_state.next_field }
  | .backTab => { a with form_state := a.form_state.prev_field }
  | .enter =>
      if a.form_state.current_field = 6 then
        match a.submit_form saveRes storeRes with
        | (a', .error e) => { a' with status_message := some ("Error: " ++ e) }
        | (a', .ok _) => { a' with status_message := some "Connection added successfully" }
      else a
  | .char c =>
      if c = ' ' ∧ a.form_state.current_field = 5 then
        { a with form_state := { a.form_state with iam := !a.form_state.iam } }
      else { a with form_state := a.form_state.handle_char c }
  | .backspace => { a with form_state := a.form_state.handle_backspace }
  | .other => a

/-- One AddForm navigation / entry key applied to a `FormState`: the
`Tab` / `BackTab` / character arms of `handle_form_input`. -/
def form_key_step (f : FormState) (key : KeyCode) : FormState :=
  match key with
  | .tab => f.next_field
  | .backTab => f.prev_field
  | .char c =>
      if c = ' ' ∧ f.current_field = 5 then { f with iam := !f.iam }
      else f.handle_char c
  | .backspace => f.handle_backspace
  | _ => f

/-- A sequence of AddForm navigation / entry keys applied in order. -/
def form_key_steps (f : FormState) : List KeyCode → FormState
  | [] => f
  | k :: ks => form_key_steps (form_key_step f k) ks

/-- Iterated `next_field`. -/
def iter_next_field (f : FormState) : Nat → FormState
  | 0 => f
  | n + 1 => iter_next_field f.next_field n

/-- Iterated `prev_field`. -/
def iter_prev_field (f : FormState) : Nat → FormState
  | 0 => f
  | n + 1 => iter_prev_field f.prev_field n

/-- Iterated `App::next_match`. -/
def iter_next_match (a : App) : Nat → App
  | 0 => a
  | n + 1 => iter_next_match a.next_match n

/-- The credential-expiry markers listed by the spec (§4.4). -/
def ssoMarkers : List String :=
  ["sso", "token has expired", "refresh_token", "the sso session", "error loading sso"]

/-- The spec's description of the search result (§4.5): the ordered list of
indices whose name contains the query as a case-insensitive substring. -/
def specMatchIndices (names : List String) (query : String) : List Nat :=
  (List.range names.length).filter
    (fun i => containsSub (lowerStr (names.getD i "")) (lowerStr query))

/-- Keyring lookup (observing the embedded secret store). -/
def secretGet (m : List (String × String)) (k : String) : Option String :=
  (m.find? (fun p => p.1 == k)).map Prod.snd

/-- A connection record used as concrete input. -/
def info0 : ConnectionInfo :=
  { host := "db.example.com", port := 5432, database := "app", username := "alice"
    iam_auth := true }

/-- A concrete session state with empty stores, used as the base of the
concrete inputs below. -/
def baseApp : App :=
  { connections := [], connection_names := [], selected_index := 0
    mode := AppMode.List, selected_action := 0, form_state := FormState.reset
    aws_profiles := [], selected_profile := 0, status_message := none
    should_quit := false, pending_action := none
    search_query := "", search_matches := [], search_match_index := 0
    profile_search_query := "", profile_search_matches := []
    profile_search_active := false, connStore := [], secretStore := [] }

/-- A completely filled, valid AddForm state (the §8 scenario: record
"db1", password kind, password "secret123"). -/
def filledForm : FormState :=
  { name := "db1", host := "db.example.com", port := "5432", database := "app"
    username := "alice", password := "secret123", iam := false, current_field := 7 }


/-- The AddForm session about to submit: filled valid form, focus on the
Submit field (index 7 of `field_labels`). -/
def addFormApp : App :=
  { baseApp with mode := AppMode.AddForm, form_state := filledForm }

/-- The same AddForm session with focus on the Password field (index 6). -/
def addFormAppPwdField : App :=
  { baseApp with mode := AppMode.AddForm
                 form_state := { filledForm with current_field := 6 } }

/-- A password-kind connection record used as concrete input. -/
def infoP : ConnectionInfo :=
  { host := "h", port := 5432, database := "d", username := "u", iam_auth := false }

/-- A session with two stored connections, the second one selected. -/
def twoConnApp : App :=
  { baseApp with connections := [("a", infoP), ("b", infoP)]
                 connection_names := ["a", "b"], selected_index := 1
                 connStore := [("a", infoP), ("b", infoP)]
                 secretStore := [("b", "pw")] }

/-! ## Search engine lemmas -/

theorem enumFrom_filter_map (f : String → Bool) : ∀ (l : List String) (k : Nat),
    ((List.enumFrom k l).filter (fun p => f p.2)).map Prod.fst
      = (List.range' k l.length).filter (fun i => f (l.getD (i - k) "")) := by
  intro l
  induction l with
  | nil => intro k; simp
  | cons x xs ih =>
      intro k
      rw [List.enumFrom_cons, List.length_cons, List.range'_succ]
      by_cases hx : f x
      · simp only [List.filter_cons, hx, Nat.sub_self, List.getD_cons_zero, if_pos trivial]
        simp only [List.map_cons]
        rw [ih (k + 1)]
        congr 1
        apply List.filter_congr
        intro i hi
        rw [List.mem_range'_1] at hi
        have h1 : i - k = (i - (k + 1)) + 1 := by omega
        rw [h1, List.getD_cons_succ]
      · simp only [List.filter_cons, Nat.sub_self, List.getD_cons_zero, hx]
        simp only [Bool.false_eq_true, if_false]
        rw [ih (k + 1)]
        apply List.filter_congr
        intro i hi
        rw [List.mem_range'_1] at hi
        have h1 : i - k = (i - (k + 1)) + 1 := by omega
        rw [h1, List.getD_cons_succ]

/-- What `update_search_matches` computes, stated against the spec-side
index list, plus the fields it leaves alone and the jump-to-first-match
behaviour. -/
theorem update_search_matches_spec (b : App) :
    (b.update_search_matches).search_matches
        = specMatchIndices b.connection_names b.search_query
    ∧ (b.update_search_matches).connection_names = b.connection_names
    ∧ (b.update_search_matches).search_query = b.search_query
    ∧ ((b.update_search_matches).search_matches ≠ [] →
        (b.update_search_matches).selected_index
            = (b.update_search_matches).search_matches.headD 0
        ∧ (b.update_search_matches).search_match_index = 0) := by
  have hm : ((b.connection_names.enum.filter
        (fun p => containsSub (lowerStr p.2) (lowerStr b.search_query))).map Prod.fst)
      = specMatchIndices b.connection_names b.search_query := by
    have := enumFrom_filter_map
      (fun s => containsSub (lowerStr s) (lowerStr b.search_query)) b.connection_names 0
    simpa [List.enum, specMatchIndices, List.range_eq_range'] using this
  unfold App.update_search_matches
  simp only [← hm]
  split
  · refine ⟨rfl, rfl, rfl, fun _ => ⟨rfl, rfl⟩⟩
  · rename_i hfalse
    simp only [Bool.not_eq_true', ← Bool.not_eq_true, List.isEmpty_iff] at hfalse
    refine ⟨rfl, rfl, rfl, fun hne => absurd ?_ hne⟩
    simpa using hfalse

/-- What `update_profile_search_matches` computes (the second instance of
the search engine). -/
theorem update_profile_search_matches_spec (b : App) :
    (b.update_profile_search_matches).profile_search_matches
        = specMatchIndices b.aws_profiles b.profile_search_query := by
  have hm : ((b.aws_profiles.enum.filter
        (fun p => containsSub (lowerStr p.2) (lowerStr b.profile_search_query))).map Prod.fst)
      = specMatchIndices b.aws_profiles b.profile_search_query := by
    have := enumFrom_filter_map
      (fun s => containsSub (lowerStr s) (lowerStr b.profile_search_query)) b.aws_profiles 0
    simpa [List.enum, specMatchIndices, List.range_eq_range'] using this
  unfold App.update_profile_search_matches
  simp only [← hm]
  split
  · rfl
  · rfl

/-- Every name contains the empty query. -/
theorem containsSub_empty (hay : String) : containsSub hay "" = true := by
  simp [containsSub]

/-! ## C3: recomputing matches with an empty query -/

/-- C3 counterexample: with candidate list `["db1"]` and the empty query,
recomputing the connection-list search matches yields `[0]` — every index —
not the empty match list the claim states. -/
theorem empty_query_yields_all_counterexample :
    ({ baseApp with connection_names := ["db1"] } : App).search_query = ""
    ∧ (App.update_search_matches
        { baseApp with connection_names := ["db1"] }).search_matches = [0] := by
  constructor
  · rfl
  · decide

/-- C3 amended: recomputing search matches with an empty query yields the
full index list `[0, …, n-1]` (every candidate matches the empty substring),
in both instances of the search engine — the connection-list search and the
profile-selector search. -/
theorem empty_query_matches_all (a : App)
    (hq : a.search_query = "") (hp : a.profile_search_query = "") :
    (a.update_search_matches).search_matches
        = List.range a.connection_names.length
    ∧ (a.update_profile_search_matches).profile_search_matches
        = List.range a.aws_profiles.length := by
  constructor
  · rw [(update_search_matches_spec a).1, specMatchIndices, hq]
    have : ∀ i, containsSub (lowerStr (a.connection_names.getD i "")) (lowerStr "") = true := by
      intro i
      simpa [lowerStr] using containsSub_empty (lowerStr (a.connection_names.getD i ""))
    exact List.filter_congr (fun i _ => this i) ▸ List.filter_true _
  · rw [update_profile_search_matches_spec a, specMatchIndices, hp]
    have : ∀ i, containsSub (lowerStr (a.aws_profiles.getD i "")) (lowerStr "") = true := by
      intro i
      simpa [lowerStr] using containsSub_empty (lowerStr (a.aws_profiles.getD i ""))
    exact List.filter_congr (fun i _ => this i) ▸ List.filter_true _

/-- C3 witness: the amended statement at a concrete state with two
connections and one profile. -/
theorem empty_query_matches_all_witness :
    (App.update_search_matches
        { baseApp with connection_names := ["a", "b"], aws_profiles := ["default"] }).search_matches
      = List.range 2
    ∧ (App.update_profile_search_matches
        { baseApp with connection_names := ["a", "b"], aws_profiles := ["default"] }).profile_search_matches
      = List.range 1 :=
  empty_query_matches_all
    { baseApp with connection_names := ["a", "b"], aws_profiles := ["default"] }
    rfl rfl

/-! ## C7: search edits recompute matches and jump to the first match -/

/-- C7: after every character-append or backspace edit in Search mode, the
match list equals exactly the ordered list of indices whose connection name
contains the (edited) query as a case-insensitive substring, and whenever
that list is non-empty the selection jumps to the first match and the match
pointer resets to 0. -/
theorem search_edit_recomputes (a : App) (key : KeyCode)
    (hmode : a.mode = AppMode.Search)
    (hkey : key = KeyCode.backspace ∨ ∃ c, key = KeyCode.char c) :
    (handle_search_input a key).search_matches
        = specMatchIndices (handle_search_input a key).connection_names
            (handle_search_input a key).search_query
    ∧ ((handle_search_input a key).search_matches ≠ [] →
        (handle_search_input a key).selected_index
            = (handle_search_input a key).search_matches.headD 0
        ∧ (handle_search_input a key).search_match_index = 0) := by
  rcases hkey with hk | ⟨c, hk⟩ <;> subst hk
  · have h := update_search_matches_spec
      { a with search_query := FormState.strPop a.search_query }
    simp only [handle_search_input]
    refine ⟨?_, h.2.2.2⟩
    rw [h.2.1, h.2.2.1, h.1]
  · have h := update_search_matches_spec { a with search_query := a.search_query.push c }
    simp only [handle_search_input]
    refine ⟨?_, h.2.2.2⟩
    rw [h.2.1, h.2.2.1, h.1]

/-- C7 witness: a concrete character edit on a two-name list; the edit
appends `b`, the matches become `[1]`, the selection jumps to index 1 and
the pointer resets. -/
theorem search_edit_recomputes_witness :
    (handle_search_input
        { baseApp with mode := AppMode.Search, connection_names := ["app", "db1"]
                       search_query := "d" } (KeyCode.char 'b')).search_matches
      = specMatchIndices ["app", "db1"] "db"
    ∧ ((handle_search_input
        { baseApp with mode := AppMode.Search, connection_names := ["app", "db1"]
                       search_query := "d" } (KeyCode.char 'b')).search_matches ≠ [] →
        (handle_search_input
        { baseApp with mode := AppMode.Search, connection_names := ["app", "db1"]
                       search_query := "d" } (KeyCode.char 'b')).selected_index
          = (handle_search_input
        { baseApp with mode := AppMode.Search, connection_names := ["app", "db1"]
                       search_query := "d" } (KeyCode.char 'b')).search_matches.headD 0
        ∧ (handle_search_input
        { baseApp with mode := AppMode.Search, connection_names := ["app", "db1"]
                       search_query := "d" } (KeyCode.char 'b')).search_match_index = 0) :=
  search_edit_recomputes
    { baseApp with mode := AppMode.Search, connection_names := ["app", "db1"]
                   search_query := "d" }
    (KeyCode.char 'b') rfl (Or.inr ⟨'b', rfl⟩)

/-! ## C8: cycling next_match -/

/-- Iterating `next_match` advances the match pointer modulo the number of
matches and leaves the match list unchanged. -/
theorem iter_next_match_mod : ∀ (k : Nat) (a : App),
    a.search_match_index < a.search_matches.length →
    (iter_next_match a k).search_match_index
        = (a.search_match_index + k) % a.search_matches.length
    ∧ (iter_next_match a k).search_matches = a.search_matches := by
  intro k
  induction k with
  | zero =>
      intro a h
      exact ⟨(Nat.mod_eq_of_lt h).symm, rfl⟩
  | succ k ih =>
      intro a h
      have hpos : 0 < a.search_matches.length := Nat.pos_of_ne_zero (by omega)
      have hne : a.search_matches.isEmpty = false := by
        cases hm : a.search_matches with
        | nil => rw [hm] at hpos; simp at hpos
        | cons x xs => simp
      have hnext : a.next_match.search_match_index
            = (a.search_match_index + 1) % a.search_matches.length
          ∧ a.next_match.search_matches = a.search_matches := by
        unfold App.next_match
        rw [hne]
        exact ⟨rfl, rfl⟩
      have hlt : a.next_match.search_match_index < a.next_match.search_matches.length := by
        rw [hnext.1, hnext.2]
        exact Nat.mod_lt _ hpos
      have := ih a.next_match hlt
      rw [hnext.2] at this
      refine ⟨?_, this.2⟩
      rw [show iter_next_match a (k + 1) = iter_next_match a.next_match k from rfl,
        this.1, hnext.1, Nat.mod_add_mod]
      congr 1
      omega

/-- C8 counterexample: three connection names, query `"b"`, two matches
(`[1, 2]`), match pointer at 0.  Applying `next_match` N = 3 times (N the
number of connection names) leaves the pointer at 1, not at its original
value 0. -/
theorem next_match_cycle_counterexample :
    (App.update_search_matches
      { baseApp with connection_names := ["a", "ab", "abb"]
                     search_query := "b" }).connection_names.length = 3
    ∧ (App.update_search_matches
      { baseApp with connection_names := ["a", "ab", "abb"]
                     search_query := "b" }).search_matches = [1, 2]
    ∧ (App.update_search_matches
      { baseApp with connection_names := ["a", "ab", "abb"]
                     search_query := "b" }).search_match_index = 0
    ∧ (iter_next_match (App.update_search_matches
      { baseApp with connection_names := ["a", "ab", "abb"]
                     search_query := "b" }) 3).search_match_index = 1 := by
  refine ⟨rfl, by decide, by decide, by decide⟩

/-- C8 amended: applying `next_match` M times, where M is the number of
current search matches (not the number of connection names), returns the
match pointer to its original value, provided the pointer is in bounds (as
every query edit establishes). -/
theorem next_match_cycle (a : App)
    (h : a.search_match_index < a.search_matches.length) :
    (iter_next_match a a.search_matches.length).search_match_index
      = a.search_match_index := by
  rw [(iter_next_match_mod a.search_matches.length a h).1,
    Nat.add_mod_right, Nat.mod_eq_of_lt h]

/-- C8 witness: the amended statement on the concrete two-match state. -/
theorem next_match_cycle_witness :
    (iter_next_match (App.update_search_matches
      { baseApp with connection_names := ["a", "ab", "abb"]
                     search_query := "b" })
      (App.update_search_matches
      { baseApp with connection_names := ["a", "ab", "abb"]
                     search_query := "b" }).search_matches.length).search_match_index
      = (App.update_search_matches
      { baseApp with connection_names := ["a", "ab", "abb"]
                     search_query := "b" }).search_match_index :=
  next_match_cycle _ (by decide)

/-! ## C6: form field navigation and the IAM skip rule -/

theorem next_field_spec (f : FormState) :
    f.next_field.iam = f.iam ∧ f.next_field.password = f.password
    ∧ (f.iam = true → f.next_field.current_field ≠ 6) := by
  unfold FormState.next_field
  by_cases hiam : f.iam = true
  · simp only [hiam, if_true, true_and]
    by_cases hc : min (f.current_field + 1) 6 = 6
    · simp [hc]
    · simp [hc]
  · have hiam' : f.iam = false := by simpa using hiam
    simp [hiam']

theorem prev_field_spec (f : FormState) :
    f.prev_field.iam = f.iam ∧ f.prev_field.password = f.password
    ∧ (f.iam = true → f.prev_field.current_field ≠ 6) := by
  unfold FormState.prev_field
  by_cases hpos : f.current_field > 0
  · simp only [hpos, if_true]
    by_cases hiam : f.iam = true
    · simp only [hiam, true_and]
      by_cases hc : f.current_field - 1 = 6
      · simp [hc]
      · simp [hc]
    · have hiam' : f.iam = false := by simpa using hiam
      simp [hiam']
  · refine ⟨by simp [hpos], by simp [hpos], fun hiam => ?_⟩
    simp only [hpos, if_false]
    omega

theorem handle_char_spec (f : FormState) (c : Char) :
    (f.handle_char c).current_field = f.current_field
    ∧ (f.handle_char c).iam = f.iam
    ∧ (f.iam = true → (f.handle_char c).password = f.password) := by
  unfold FormState.handle_char
  split <;> (try split) <;>
    first
    | exact ⟨rfl, rfl, fun _ => rfl⟩
    | (rename_i hiam6; exact ⟨rfl, rfl, fun h => by simp [h] at hiam6⟩)

theorem handle_backspace_spec (f : FormState) :
    f.handle_backspace.current_field = f.current_field
    ∧ f.handle_backspace.iam = f.iam
    ∧ (f.iam = true → f.handle_backspace.password = f.password) := by
  unfold FormState.handle_backspace
  split <;> (try split) <;>
    first
    | exact ⟨rfl, rfl, fun _ => rfl⟩
    | (rename_i hiam6; exact ⟨rfl, rfl, fun h => by simp [h] at hiam6⟩)

/-- One navigation / entry key preserves the skip invariant, the IAM flag
being changeable only on field 5, and never touches the password while
`iam` is set. -/
theorem form_key_step_spec (f : FormState) (k : KeyCode)
    (h : f.iam = true → f.current_field ≠ 6) :
    ((form_key_step f k).iam = true → (form_key_step f k).current_field ≠ 6)
    ∧ (f.iam = true → (form_key_step f k).password = f.password) := by
  cases k with
  | tab => exact ⟨fun hi => (next_field_spec f).2.2 ((next_field_spec f).1 ▸ hi),
      fun _ => (next_field_spec f).2.1⟩
  | backTab => exact ⟨fun hi => (prev_field_spec f).2.2 ((prev_field_spec f).1 ▸ hi),
      fun _ => (prev_field_spec f).2.1⟩
  | backspace =>
      exact ⟨fun hi => by
          rw [(show (form_key_step f KeyCode.backspace) = f.handle_backspace from rfl),
            (handle_backspace_spec f).1]
          exact h ((handle_backspace_spec f).2.1 ▸ hi),
        fun hiam => (handle_backspace_spec f).2.2 hiam⟩
  | char c =>
      simp only [form_key_step]
      by_cases hc : c = ' ' ∧ f.current_field = 5
      · simp only [hc, if_true]
        exact ⟨fun _ => by simp [hc.2], fun _ => rfl⟩
      · simp only [hc, if_false]
        exact ⟨fun hi => by
            rw [(handle_char_spec f c).1]
            exact h ((handle_char_spec f c).2.1 ▸ hi),
          fun hiam => (handle_char_spec f c).2.2 hiam⟩
  | enter => exact ⟨h, fun _ => rfl⟩
  | esc => exact ⟨h, fun _ => rfl⟩
  | other => exact ⟨h, fun _ => rfl⟩

/-- The skip invariant holds along every key sequence from any state
satisfying it. -/
theorem form_key_steps_inv : ∀ (ks : List KeyCode) (f : FormState),
    (f.iam = true → f.current_field ≠ 6) →
    ((form_key_steps f ks).iam = true → (form_key_steps f ks).current_field ≠ 6) := by
  intro ks
  induction ks with
  | nil => intro f h; exact h
  | cons k ks ih =>
      intro f h
      exact ih (form_key_step f k) (form_key_step_spec f k h).1

/-- With `iam` unset, `next_field` walks the full field range in order. -/
theorem iter_next_field_spec : ∀ (k : Nat) (f : FormState),
    f.iam = false → f.current_field + k ≤ 7 →
    (iter_next_field f k).current_field = f.current_field + k
    ∧ (iter_next_field f k).iam = false := by
  intro k
  induction k with
  | zero => intro f hiam _; exact ⟨rfl, hiam⟩
  | succ k ih =>
      intro f hiam hle
      have hstep : f.next_field.current_field = f.current_field + 1
          ∧ f.next_field.iam = false := by
        unfold FormState.next_field
        simp [hiam]
        omega
      have := ih f.next_field hstep.2 (by omega)
      rw [show iter_next_field f (k + 1) = iter_next_field f.next_field k from rfl,
        this.1, hstep.1]
      exact ⟨by omega, this.2⟩

/-- With `iam` unset, `prev_field` walks the full field range backwards. -/
theorem iter_prev_field_spec : ∀ (k : Nat) (f : FormState),
    f.iam = false → k ≤ f.current_field →
    (iter_prev_field f k).current_field = f.current_field - k
    ∧ (iter_prev_field f k).iam = false := by
  intro k
  induction k with
  | zero => intro f hiam _; exact ⟨rfl, hiam⟩
  | succ k ih =>
      intro f hiam hle
      have hstep : f.prev_field.current_field = f.current_field - 1
          ∧ f.prev_field.iam = false := by
        unfold FormState.prev_field
        have hpos : f.current_field > 0 := by omega
        simp [hpos, hiam]
      have := ih f.prev_field hstep.2 (by omega)
      rw [show iter_prev_field f (k + 1) = iter_prev_field f.prev_field k from rfl,
        this.1, hstep.1]
      exact ⟨by omega, this.2⟩

/-- C6: starting from the reset form, along every sequence of AddForm
navigation and entry keys, whenever `iam` is set the focus is never on
field 6 (Password) and a further character-entry key never changes the
password; and with `iam` unset, iterated forward navigation visits fields
0..7 in order and iterated backward navigation visits 7..0 in order. -/
theorem form_navigation_skips_password :
    (∀ ks : List KeyCode, (form_key_steps FormState.reset ks).iam = true →
        (form_key_steps FormState.reset ks).current_field ≠ 6)
    ∧ (∀ (ks : List KeyCode) (c : Char),
        (form_key_steps FormState.reset ks).iam = true →
        (form_key_step (form_key_steps FormState.reset ks) (KeyCode.char c)).password
          = (form_key_steps FormState.reset ks).password)
    ∧ (∀ k : Nat, k ≤ 7 → (iter_next_field FormState.reset k).current_field = k)
    ∧ (∀ k : Nat, k ≤ 7 →
        (iter_prev_field (iter_next_field FormState.reset 7) k).current_field = 7 - k) := by
  have hreset : FormState.reset.iam = true → FormState.reset.current_field ≠ 6 := by
    intro h; cases h
  refine ⟨fun ks => form_key_steps_inv ks FormState.reset hreset, ?_, ?_, ?_⟩
  · intro ks c hiam
    exact (form_key_step_spec (form_key_steps FormState.reset ks) (KeyCode.char c)
      (form_key_steps_inv ks FormState.reset hreset)).2 hiam
  · intro k hk
    have h0 : FormState.reset.current_field = 0 := rfl
    have h := (iter_next_field_spec k FormState.reset rfl (by rw [h0]; omega)).1
    rw [h, h0]
    omega
  · intro k hk
    have h0 : FormState.reset.current_field = 0 := rfl
    have h7 := iter_next_field_spec 7 FormState.reset rfl (by rw [h0])
    have h := iter_prev_field_spec k (iter_next_field FormState.reset 7) h7.2 (by omega)
    rw [h.1, h7.1, h0]

/-- C6 witness: toggling IAM on field 5 (five forward keys, then space)
leaves the focus off field 6; typing a character afterwards does not touch
the password; seven forward keys from reset reach field 7 and seven
backward keys return to field 0. -/
theorem form_navigation_skips_password_witness :
    (form_key_steps FormState.reset
        [KeyCode.tab, KeyCode.tab, KeyCode.tab, KeyCode.tab, KeyCode.tab,
         KeyCode.char ' ']).current_field ≠ 6
    ∧ (form_key_step (form_key_steps FormState.reset
        [KeyCode.tab, KeyCode.tab, KeyCode.tab, KeyCode.tab, KeyCode.tab,
         KeyCode.char ' ']) (KeyCode.char 'x')).password
        = (form_key_steps FormState.reset
        [KeyCode.tab, KeyCode.tab, KeyCode.tab, KeyCode.tab, KeyCode.tab,
         KeyCode.char ' ']).password
    ∧ (iter_next_field FormState.reset 7).current_field = 7
    ∧ (iter_prev_field (iter_next_field FormState.reset 7) 7).current_field = 0 :=
  ⟨form_navigation_skips_password.1 _ (by decide),
   form_navigation_skips_password.2.1 _ 'x' (by decide),
   form_navigation_skips_password.2.2.1 7 (by decide),
   form_navigation_skips_password.2.2.2 7 (by decide)⟩

/-! ## C2: credential-expiry classification of token-issuance failures -/

/-- The code's classifier agrees with the spec's marker list. -/
theorem needs_sso_login_eq_markers (e : String) :
    needs_sso_login e = ssoMarkers.any (fun m => containsSub (lowerStr e) m) := by
  simp [needs_sso_login, ssoMarkers, Bool.or_assoc]

/-- C2: on a token-issuance failure during an IAM connect, the interactive
login is attempted iff the error text case-insensitively contains one of
the five markers; with no marker present, no login is attempted, the status
message reports the original token-generation error, no retry is scheduled
and the mode is unchanged. -/
theorem iam_login_iff_marker (a : App) (info : ConnectionInfo)
    (profile : Option String) (e : String)
    (loginRes clientRes : Except String Unit)
    (hp : a.pending_action = none) :
    ((handle_pending_iam a info profile (.error e) loginRes clientRes).loginAttempted = true
      ↔ ∃ m ∈ ssoMarkers, containsSub (lowerStr e) m = true)
    ∧ ((¬ ∃ m ∈ ssoMarkers, containsSub (lowerStr e) m = true) →
        (handle_pending_iam a info profile (.error e) loginRes clientRes).app.status_message
            = some ("Error: Failed to generate IAM token: " ++ e)
        ∧ (handle_pending_iam a info profile (.error e) loginRes clientRes).app.pending_action
            = none
        ∧ (handle_pending_iam a info profile (.error e) loginRes clientRes).app.mode
            = a.mode) := by
  have hmark : needs_sso_login e = true
      ↔ ∃ m ∈ ssoMarkers, containsSub (lowerStr e) m = true := by
    rw [needs_sso_login_eq_markers]
    exact List.any_eq_true
  unfold handle_pending_iam
  by_cases hn : needs_sso_login e = true
  · simp only [hn, if_true]
    constructor
    · cases loginRes <;> simp [App.retry_iam_connect, hmark.mp hn]
    · intro hno
      exact absurd (hmark.mp hn) hno
  · have hn' : needs_sso_login e = false := by simpa using hn
    simp only [hn', Bool.false_eq_true, if_false]
    constructor
    · simp only [Bool.false_eq_true, false_iff]
      intro hex
      exact hn (hmark.mpr hex)
    · intro _
      exact ⟨trivial, hp, trivial⟩

/-- C2 witness: the error text "connection timed out" carries no marker:
no login is attempted and the status message is the raw token error. -/
theorem iam_login_iff_marker_witness :
    ((handle_pending_iam baseApp info0 none (.error "connection timed out")
        (.ok ()) (.ok ())).loginAttempted = false)
    ∧ (handle_pending_iam baseApp info0 none (.error "connection timed out")
        (.ok ()) (.ok ())).app.status_message
        = some "Error: Failed to generate IAM token: connection timed out"
    ∧ (handle_pending_iam baseApp info0 none (.error "connection timed out")
        (.ok ()) (.ok ())).app.mode = baseApp.mode := by
  have h := iam_login_iff_marker baseApp info0 none "connection timed out"
    (.ok ()) (.ok ()) rfl
  have hno : ¬ ∃ m ∈ ssoMarkers, containsSub (lowerStr "connection timed out") m = true := by
    decide
  have h2 := h.2 hno
  refine ⟨?_, h2.1, h2.2.2⟩
  cases hb : (handle_pending_iam baseApp info0 none (.error "connection timed out")
      (.ok ()) (.ok ())).loginAttempted
  · rfl
  · exact absurd (hb ▸ h.1.mp hb) hno

/-! ## C1: the SSO-login-then-retry cycle -/

/-- C1 amended: along one user-initiated IAM connect, each successful SSO
login (after a marker-classified token failure) schedules exactly one
automatic retry of token issuance — the number of automatic retries always
equals the number of successful logins in the chain; nothing in the code
bounds the chain to a single login-and-retry cycle. -/
theorem iam_retries_eq_login_successes :
    ∀ (toks : List (Except String String)) (info : ConnectionInfo)
      (profile : Option String) (clientRes : Except String Unit) (a : App)
      (logins : List (Except String Unit)),
    (run_iam_chain info profile clientRes a toks logins).2.1
      = (run_iam_chain info profile clientRes a toks logins).2.2 := by
  intro toks
  induction toks with
  | nil => intro info profile clientRes a logins; rfl
  | cons t ts ih =>
      intro info profile clientRes a logins
      cases t with
      | ok s =>
          cases clientRes with
          | ok u => cases u; simp [run_iam_chain, handle_pending_iam]
          | error e => simp [run_iam_chain, handle_pending_iam]
      | error e =>
          by_cases hn : needs_sso_login e = true
          · cases logins with
            | nil => simp [run_iam_chain, handle_pending_iam, hn, Except.isOk, Except.toBool]
            | cons l ls =>
                cases l with
                | ok u =>
                    cases u
                    simp [run_iam_chain, handle_pending_iam, hn,
                      App.retry_iam_connect, Except.isOk, Except.toBool, ih]
                | error le =>
                    simp [run_iam_chain, handle_pending_iam, hn, Except.isOk, Except.toBool]
          · have hn' : needs_sso_login e = false := by simpa using hn
            simp [run_iam_chain, handle_pending_iam, hn']

/-- C1 counterexample: a user-initiated IAM connect whose token issuance
fails twice with an expiry marker, with both interactive logins succeeding,
performs two automatic login-and-retry cycles — not at most one. -/
theorem iam_retry_unbounded_counterexample :
    (run_iam_chain info0 none (.ok ()) baseApp
      [.error "The SSO session has expired", .error "The SSO session has expired",
       .ok "token"]
      [.ok (), .ok ()]).2.1 = 2 := by
  decide

/-! ## C4: which field confirms the form -/

/-- C4: in the field list, index 7 is "Submit" and index 6 is "Password",
yet pressing confirm on field 7 (the rendered Submit button) does nothing —
the state is returned unchanged — while pressing confirm on field 6
submits the form (mode returns to List, success status, record persisted).
The submit check `current_field == 6` contradicts the code's own field
labels and the rendered Submit button at index 7. -/
theorem confirm_submits_on_password_field_not_submit_field :
    FormState.field_labels.getD 7 "" = "Submit"
    ∧ FormState.field_labels.getD 6 "" = "Password"
    ∧ handle_form_input addFormApp KeyCode.enter (.ok ()) (.ok ()) = addFormApp
    ∧ (handle_form_input addFormAppPwdField KeyCode.enter (.ok ()) (.ok ())).mode
        = AppMode.List
    ∧ (handle_form_input addFormAppPwdField KeyCode.enter (.ok ()) (.ok ())).status_message
        = some "Connection added successfully"
    ∧ mapGet (handle_form_input addFormAppPwdField KeyCode.enter
        (.ok ()) (.ok ())).connStore "db1"
        = some { host := "db.example.com", port := 5432, database := "app"
                 username := "alice", iam_auth := false } := by
  refine ⟨rfl, rfl, rfl, by decide, by decide, by decide⟩

/-! ## C5: form submission validation and effects -/

/-- `validate` succeeds exactly on the spec's non-emptiness conditions. -/
theorem validate_ok_iff (f : FormState) :
    f.validate = .ok () ↔
      (f.name.isEmpty = false ∧ f.host.isEmpty = false ∧ f.port.isEmpty = false
       ∧ f.database.isEmpty = false ∧ f.username.isEmpty = false
       ∧ (f.iam = true ∨ f.password.isEmpty = false)) := by
  unfold FormState.validate
  split_ifs with h1 h2 h3 h4 h5 h6 <;> simp_all
  cases hb : f.iam
  · exact Or.inr (h6 hb)
  · exact Or.inl rfl

/-- C5: with the store operations succeeding, form submission succeeds iff
name, host, port-text, database and username are non-empty, the password
is non-empty unless `iam` is set, and the port text parses as a `u16`; on
success the record is persisted (and, when `iam` is unset, the password is
stored under the connection name); on a validation or port-parse failure
the whole state — mode and both stores included — is unchanged. -/
theorem submit_form_spec (a : App) :
    ((a.submit_form (.ok ()) (.ok ())).2 = .ok () ↔
      (a.form_state.name.isEmpty = false ∧ a.form_state.host.isEmpty = false
       ∧ a.form_state.port.isEmpty = false ∧ a.form_state.database.isEmpty = false
       ∧ a.form_state.username.isEmpty = false
       ∧ (a.form_state.iam = true ∨ a.form_state.password.isEmpty = false)
       ∧ (parseU16 a.form_state.port).isSome = true))
    ∧ ((a.submit_form (.ok ()) (.ok ())).2 = .ok () →
        (a.submit_form (.ok ()) (.ok ())).1.mode = AppMode.List
        ∧ mapGet (a.submit_form (.ok ()) (.ok ())).1.connStore a.form_state.name
            = some { host := a.form_state.host
                     port := (parseU16 a.form_state.port).getD 0
                     database := a.form_state.database
                     username := a.form_state.username
                     iam_auth := a.form_state.iam }
        ∧ (a.form_state.iam = false →
            secretGet (a.submit_form (.ok ()) (.ok ())).1.secretStore a.form_state.name
              = some a.form_state.password))
    ∧ ((a.submit_form (.ok ()) (.ok ())).2 ≠ .ok () →
        (a.submit_form (.ok ()) (.ok ())).1 = a) := by
  by_cases hv : a.form_state.validate = .ok ()
  · cases hp : parseU16 a.form_state.port with
    | none =>
        simp only [App.submit_form, hv, hp]
        refine ⟨⟨fun h => by simp at h, fun h => ?_⟩, fun h => by simp at h, fun _ => trivial⟩
        exact absurd h.2.2.2.2.2.2 (by simp)
    | some v =>
        have hV := (validate_ok_iff a.form_state).mp hv
        have hok : (a.submit_form (.ok ()) (.ok ())).2 = .ok () := by
          cases hiam : a.form_state.iam <;>
            simp [App.submit_form, hv, hp, hiam]
        have hmode : (a.submit_form (.ok ()) (.ok ())).1.mode = AppMode.List := by
          cases hiam : a.form_state.iam <;>
            simp [App.submit_form, hv, hp, hiam, App.reload_connections]
        have hconn : mapGet (a.submit_form (.ok ()) (.ok ())).1.connStore a.form_state.name
            = some { host := a.form_state.host
                     port := v
                     database := a.form_state.database
                     username := a.form_state.username
                     iam_auth := a.form_state.iam } := by
          cases hiam : a.form_state.iam <;>
            simp [App.submit_form, hv, hp, hiam, App.reload_connections,
              mapGet, mapInsert, List.find?]
        have hsec : a.form_state.iam = false →
            secretGet (a.submit_form (.ok ()) (.ok ())).1.secretStore a.form_state.name
              = some a.form_state.password := by
          intro hf
          simp [App.submit_form, hv, hp, hf, App.reload_connections, secretGet, List.find?]
        refine ⟨⟨fun _ => ⟨hV.1, hV.2.1, hV.2.2.1, hV.2.2.2.1, hV.2.2.2.2.1,
            hV.2.2.2.2.2, by simp [hp]⟩, fun _ => hok⟩,
          fun _ => ⟨hmode, hconn, hsec⟩, fun h => absurd hok h⟩
  · cases hv2 : a.form_state.validate with
    | ok u => cases u; exact absurd hv2 hv
    | error e =>
        simp only [App.submit_form, hv2]
        refine ⟨⟨fun h => by simp at h, fun h => ?_⟩, fun h => by simp at h, fun _ => trivial⟩
        exact absurd ((validate_ok_iff _).mpr
          ⟨h.1, h.2.1, h.2.2.1, h.2.2.2.1, h.2.2.2.2.1, h.2.2.2.2.2.1⟩) hv

/-- C5 witness: the §8 scenario — record "db1", `iam=false`, password
"secret123": submission succeeds and the secret store holds the password
under the record name. -/
theorem submit_form_spec_witness :
    ((addFormApp.submit_form (.ok ()) (.ok ())).2 = .ok ())
    ∧ secretGet (addFormApp.submit_form (.ok ()) (.ok ())).1.secretStore "db1"
        = some "secret123" := by
  have h := submit_form_spec addFormApp
  have hok : (addFormApp.submit_form (.ok ()) (.ok ())).2 = .ok () :=
    h.1.mpr (by decide)
  exact ⟨hok, (h.2.1 hok).2.2 (by decide)⟩

/-! ## C9 and C10: deleting the selected connection -/

/-- Keys of the map after `remove` are the old keys except the removed one. -/
theorem mapKeys_mapRemove (m : List (String × ConnectionInfo)) (k : String) :
    mapKeys (mapRemove m k) = (mapKeys m).filter (fun s => s != k) := by
  induction m with
  | nil => rfl
  | cons p ps ih =>
      simp only [mapRemove, mapKeys, List.filter_cons, List.map_cons] at ih ⊢
      by_cases h : p.1 = k
      · simp [h, ih]
      · simp [h, ih]

/-- A key present among the map's keys has a binding. -/
theorem mapGet_isSome_of_mem {m : List (String × ConnectionInfo)} {k : String}
    (h : k ∈ mapKeys m) : ∃ v, mapGet m k = some v := by
  induction m with
  | nil => cases h
  | cons p ps ih =>
      have h' : k = p.1 ∨ k ∈ mapKeys ps := by simpa [mapKeys] using h
      by_cases hk : p.1 = k
      · exact ⟨p.2, by simp [mapGet, List.find?, hk]⟩
      · have hmem : k ∈ mapKeys ps := by
          rcases h' with h' | h'
          · exact absurd h'.symm hk
          · exact h'
        rcases ih hmem with ⟨v, hv⟩
        refine ⟨v, ?_⟩
        simp only [mapGet, List.find?] at hv ⊢
        have hbe : (p.1 == k) = false := by simpa using hk
        rw [hbe]
        exact hv

/-- The removed key has no binding afterwards. -/
theorem mapGet_mapRemove (m : List (String × ConnectionInfo)) (k : String) :
    mapGet (mapRemove m k) k = none := by
  induction m with
  | nil => rfl
  | cons p ps ih =>
      simp only [mapRemove, List.filter_cons] at ih ⊢
      by_cases h : p.1 = k
      · simpa [h] using ih
      · have hbe : (p.1 == k) = false := by simpa using h
        simp only [bne, hbe, Bool.not_false, if_true]
        simp only [mapGet, List.find?, hbe]
        exact ih

/-- Sorting the names keeps their number and membership. -/
theorem sortNames_length (l : List String) : (sortNames l).length = l.length :=
  (List.perm_insertionSort _ l).length_eq

theorem mem_sortNames {x : String} {l : List String} :
    x ∈ sortNames l ↔ x ∈ l :=
  (List.perm_insertionSort _ l).mem_iff

/-- Removing one occurrence of a present key from a duplicate-free name
list shortens it by exactly one. -/
theorem filter_ne_length {l : List String} {x : String}
    (hnd : l.Nodup) (hx : x ∈ l) :
    (l.filter (fun s => s != x)).length = l.length - 1 := by
  rw [← List.Nodup.erase_eq_filter hnd x]
  exact List.length_erase_of_mem hx

/-- C9: deleting the currently selected connection shrinks the name list by
one and never leaves the selection out of bounds: when the shrunken list is
non-empty the selection is in bounds, and is clamped to `len-1` when the
old index is past the end; when the list becomes empty the selection is 0. -/
theorem delete_clamps_selection (a : App) (removeRes : Except String Unit)
    (hnames : a.connection_names = sortNames (mapKeys a.connections))
    (hnd : (mapKeys a.connections).Nodup)
    (hsel : a.selected_index < a.connection_names.length) :
    ((a.delete_selected_connection (.ok ()) removeRes).1.connection_names.length
        = a.connection_names.length - 1)
    ∧ ((a.delete_selected_connection (.ok ()) removeRes).1.connection_names ≠ [] →
        ((a.delete_selected_connection (.ok ()) removeRes).1.selected_index
            < (a.delete_selected_connection (.ok ()) removeRes).1.connection_names.length)
        ∧ (a.selected_index
              ≥ (a.delete_selected_connection (.ok ()) removeRes).1.connection_names.length →
            (a.delete_selected_connection (.ok ()) removeRes).1.selected_index
              = (a.delete_selected_connection
                  (.ok ()) removeRes).1.connection_names.length - 1))
    ∧ ((a.delete_selected_connection (.ok ()) removeRes).1.connection_names = [] →
        (a.delete_selected_connection (.ok ()) removeRes).1.selected_index = 0) := by
  obtain ⟨name, hget⟩ : ∃ name, a.connection_names.get? a.selected_index = some name :=
    ⟨a.connection_names.get ⟨a.selected_index, hsel⟩, List.get?_eq_get hsel⟩
  have hmem : name ∈ a.connection_names := List.get?_mem hget
  have hkeys : name ∈ mapKeys a.connections := by
    rw [hnames] at hmem
    exact mem_sortNames.mp hmem
  obtain ⟨v, hv⟩ := mapGet_isSome_of_mem hkeys
  have hsc : a.selected_connection = some (name, v) := by
    unfold App.selected_connection
    rw [hget]
    simp [hv]
  have hlen : (sortNames (mapKeys (mapRemove a.connections name))).length
      = a.connection_names.length - 1 := by
    rw [sortNames_length, mapKeys_mapRemove, filter_ne_length hnd hkeys,
      hnames, sortNames_length]
  simp only [App.delete_selected_connection, hsc, App.reload_connections]
  refine ⟨hlen, ?_, ?_⟩
  · intro hne
    have hne' : (sortNames (mapKeys (mapRemove a.connections name))).length ≠ 0 := by
      intro h0
      exact hne (by simpa using List.length_eq_zero.mp (by simpa using h0))
    by_cases hc : a.selected_index ≥ (sortNames (mapKeys (mapRemove a.connections name))).length
    · have hemp : (sortNames (mapKeys (mapRemove a.connections name))).isEmpty = false := by
        cases hq : sortNames (mapKeys (mapRemove a.connections name)) with
        | nil => rw [hq] at hne'; simp at hne'
        | cons x xs => simp
      simp only [ge_iff_le, hc, hemp, Bool.false_eq_true, not_false_iff, and_true, if_pos]
      exact ⟨by omega, fun _ => trivial⟩
    · have hlt : a.selected_index
          < (sortNames (mapKeys (mapRemove a.connections name))).length := by
        omega
      rw [if_neg (fun hcond => absurd hcond.1 (by omega))]
      exact ⟨hlt, fun h => absurd h (by omega)⟩
  · intro hq
    have h0 : (sortNames (mapKeys (mapRemove a.connections name))).length = 0 := by
      rw [hq]
      rfl
    have hempT : (sortNames (mapKeys (mapRemove a.connections name))).isEmpty = true := by
      rw [hq]
      rfl
    rw [if_neg (fun hcond => hcond.2 (by rw [hempT]))]
    omega

/-- C9 witness: deleting the selected last connection of two leaves one
connection with the selection clamped in bounds. -/
theorem delete_clamps_selection_witness :
    ((twoConnApp.delete_selected_connection (.ok ()) (.ok ())).1.connection_names.length
        = twoConnApp.connection_names.length - 1)
    ∧ ((twoConnApp.delete_selected_connection (.ok ()) (.ok ())).1.selected_index
        < (twoConnApp.delete_selected_connection
            (.ok ()) (.ok ())).1.connection_names.length) := by
  have hnames : twoConnApp.connection_names = sortNames (mapKeys twoConnApp.connections) := by
    simp [twoConnApp, baseApp, infoP, sortNames, mapKeys,
      List.insertionSort, List.orderedInsert]
    decide
  have h := delete_clamps_selection twoConnApp (.ok ()) hnames (by decide) (by decide)
  have hne : (twoConnApp.delete_selected_connection
      (.ok ()) (.ok ())).1.connection_names ≠ [] := by
    intro h0
    have h1 := h.1
    rw [h0] at h1
    simp [twoConnApp, baseApp] at h1
  exact ⟨h.1, (h.2.1 hne).1⟩

/-- C10: deleting the selected connection succeeds even when the
secret-store password removal fails: the record is removed from the
connection store, the cached name list is reloaded, the status message is
the fixed deletion message (independent of the secret-store error, which
never becomes the status message), and the secret store is left as it
was. -/
theorem delete_discards_secret_error (a : App) (name : String) (v : ConnectionInfo)
    (msg : String) (hsc : a.selected_connection = some (name, v)) :
    ((a.delete_selected_connection (.ok ()) (.error msg)).2 = .ok ())
    ∧ (a.delete_selected_connection (.ok ()) (.error msg)).1.status_message
        = some ("Connection '" ++ name ++ "' deleted")
    ∧ mapGet (a.delete_selected_connection (.ok ()) (.error msg)).1.connStore name = none
    ∧ (a.delete_selected_connection (.ok ()) (.error msg)).1.connection_names
        = sortNames (mapKeys (mapRemove a.connections name))
    ∧ (a.delete_selected_connection (.ok ()) (.error msg)).1.secretStore
        = a.secretStore := by
  simp only [App.delete_selected_connection, hsc, App.reload_connections]
  exact ⟨trivial, trivial, mapGet_mapRemove _ _, trivial, trivial⟩

/-- C10 witness: deleting connection "b" while the keyring removal fails
still reports the fixed deletion message and leaves the keyring entry. -/
theorem delete_discards_secret_error_witness :
    ((twoConnApp.delete_selected_connection (.ok ()) (.error "keyring locked")).2 = .ok ())
    ∧ (twoConnApp.delete_selected_connection
        (.ok ()) (.error "keyring locked")).1.status_message
        = some "Connection 'b' deleted"
    ∧ (twoConnApp.delete_selected_connection
        (.ok ()) (.error "keyring locked")).1.secretStore = [("b", "pw")] := by
  have h := delete_discards_secret_error twoConnApp "b" infoP "keyring locked" (by decide)
  exact ⟨h.1, h.2.1, h.2.2.2.2⟩
